import Mathlib

/-!
Verification development for the `playback` HTTP access-log replay tool
(`src/main.rs`).  The Rust source is shallowly embedded: strings are lists of
Unicode characters (as in Rust, a `char` is a Unicode scalar value and string
slicing is by UTF-8 byte index), machine integers are `Nat` with explicit
`% 2 ^ 64` where wrap-around matters, fallible functions return `Except` or an
explicit outcome type, and a Rust panic is an explicit outcome constructor.
External-crate behaviour (`chrono` timestamp parsing, `url` parsing,
`http` method/header validation, Rust `u64::from_str`) is modelled by
executable Lean functions whose doc comments state what they model.
-/

/-- Outcome of running a Rust function that can return `Ok`, return `Err`,
or panic.  `panicked` models an actual Rust panic (index out of bounds,
`unwrap` on `Err`, arithmetic overflow check, ...). -/
inductive RunOutcome (α : Type) where
  | ok : α → RunOutcome α
  | err : String → RunOutcome α
  | panicked : RunOutcome α
deriving DecidableEq

/-- True exactly on the `ok` constructor. -/
def RunOutcome.isOk : RunOutcome α → Bool
  | .ok _ => true
  | _ => false

/-- Numeric value of a list of ASCII digits, most significant first
(the accumulator loop of integer parsing). -/
def digits_to_nat (ds : List Char) : Nat :=
  ds.foldl (fun a c => 10 * a + (c.toNat - 48)) 0

/-- Models Rust `<u64 as FromStr>::from_str` (called as `.parse()` in
`TimeType::from_str`): an optional leading plus sign, then one or more ASCII
digits, and the value must fit in `u64`; anything else (empty string, other
characters, overflow) is an `Err`. -/
def u64_from_str (cs : List Char) : Option Nat :=
  let ds := match cs with
    | c :: rest => if c = '+' then rest else cs
    | [] => []
  if ds.isEmpty then none
  else if ds.all Char.isDigit then
    if digits_to_nat ds < 2 ^ 64 then some (digits_to_nat ds) else none
  else none

/-- `enum TimeType` from `src/main.rs` (shift expression with unit). -/
inductive TimeType where
  | S : Nat → TimeType
  | M : Nat → TimeType
  | H : Nat → TimeType
  | D : Nat → TimeType
  | W : Nat → TimeType
deriving DecidableEq

/-- `TimeType::from_str` from `src/main.rs`.  The Rust code takes
`s.chars().last()`, then slices `&s[0..(s.len() - 1)]` — a BYTE-indexed slice.
When the final character occupies more than one UTF-8 byte, the index
`s.len() - 1` is not a character boundary and the slice panics; this is the
`panicked` branch.  Otherwise the prefix (all characters but the last) is
parsed as `u64` with `?`, and the final character is matched against the five
unit letters, any other letter being `bail!("invalid shift time")`. -/
def TimeType.from_str (cs : List Char) : RunOutcome TimeType :=
  match cs.getLast? with
  | none => .err "invalid shift time"
  | some tail =>
    if tail.utf8Size ≠ 1 then .panicked
    else
      match u64_from_str cs.dropLast with
      | none => .err "invalid digit found in string"
      | some number =>
        if tail = 's' then .ok (TimeType.S number)
        else if tail = 'm' then .ok (TimeType.M number)
        else if tail = 'h' then .ok (TimeType.H number)
        else if tail = 'd' then .ok (TimeType.D number)
        else if tail = 'w' then .ok (TimeType.W number)
        else .err "invalid shift time"

/-- `parse_time` from `src/main.rs`, producing the seconds of the resulting
`std::time::Duration`.  The unit scalings `t * 60`, `t * 60 * 60`, … are
unchecked `u64` multiplications; release-mode Rust wraps on overflow, so each
product is taken modulo `2 ^ 64` (wrapping each intermediate step agrees with
one final reduction, since `(a % n * b) % n = a * b % n`). -/
def parse_time (cs : List Char) : RunOutcome Nat :=
  match TimeType.from_str cs with
  | .err e => .err e
  | .panicked => .panicked
  | .ok tt =>
    .ok (match tt with
      | .S t => t
      | .M t => (t * 60) % 2 ^ 64
      | .H t => (t * 60 * 60) % 2 ^ 64
      | .D t => (t * 60 * 60 * 24) % 2 ^ 64
      | .W t => (t * 60 * 60 * 24 * 7) % 2 ^ 64)

/-- Seconds factor of each unit letter, `none` for a non-unit character.
This is the specification-side table s=1, m=60, h=3600, d=86400, w=604800. -/
def unit_factor (c : Char) : Option Nat :=
  if c = 's' then some 1
  else if c = 'm' then some 60
  else if c = 'h' then some 3600
  else if c = 'd' then some 86400
  else if c = 'w' then some 604800
  else none

/-- Parts of a parsed timestamp (the fields `chrono` extracts from
`%Y-%m-%d %H:%M:%S%.f UTC`). -/
structure TsParts where
  year : Nat
  month : Nat
  day : Nat
  hour : Nat
  minute : Nat
  second : Nat
  nanos : Nat
deriving DecidableEq

/-- Gregorian leap-year rule. -/
def is_leap_year (y : Nat) : Bool :=
  (y % 4 == 0 && !(y % 100 == 0)) || y % 400 == 0

/-- Number of days of month `m` of year `y`. -/
def days_in_month (y m : Nat) : Nat :=
  if m = 2 then (if is_leap_year y then 29 else 28)
  else if m = 4 ∨ m = 6 ∨ m = 9 ∨ m = 11 then 30
  else 31

/-- Greedily take up to `maxW` leading ASCII digits (the numeric scanner of
`chrono`, which reads between 1 and `maxW` digits for a field). -/
def take_digits_up_to : Nat → List Char → List Char
  | 0, _ => []
  | _, [] => []
  | n + 1, c :: cs => if c.isDigit then c :: take_digits_up_to n cs else []

/-- Scan a numeric field of at most `maxW` digits; fails when no digit is
present. -/
def scan_num (maxW : Nat) (cs : List Char) : Option (Nat × List Char) :=
  let ds := take_digits_up_to maxW cs
  if ds.isEmpty then none else some (digits_to_nat ds, cs.drop ds.length)

/-- Consume one expected literal character. -/
def expect_char (c : Char) : List Char → Option (List Char)
  | d :: cs => if d = c then some cs else none
  | [] => none

/-- Scan the optional fractional part `%.f`: either nothing, or a dot
followed by at least one digit; the first nine digits give nanoseconds and
further digits are consumed and ignored. -/
def scan_fraction (cs : List Char) : Option (Nat × List Char) :=
  match cs with
  | c :: rest =>
    if c = '.' then
      let ds := rest.takeWhile Char.isDigit
      if ds.isEmpty then none
      else some (digits_to_nat (ds.take 9) * 10 ^ (9 - min 9 ds.length),
        rest.drop ds.length)
    else some (0, cs)
  | [] => some (0, [])

/-- Calendar-range validation of the parsed fields: month and day in range
for the (leap-aware) month length, hour/minute/second bounded, and the year
bounded by `chrono::naive::MAX_YEAR`. -/
def ts_in_range (y mo d h mi s : Nat) : Bool :=
  y ≤ 262143 && 1 ≤ mo && mo ≤ 12 && 1 ≤ d && d ≤ days_in_month y mo &&
    h ≤ 23 && mi ≤ 59 && s ≤ 59

/-- Models `chrono::NaiveDateTime::parse_from_str` with the fixed format
`"%Y-%m-%d %H:%M:%S%.f UTC"` used by `Log::try_from`: a year (digit string),
literal separators, one-or-two-digit month/day/hour/minute/second fields, an
optional `.fraction`, the literal suffix `" UTC"`, and nothing after it;
fields must be in calendar range (the model approximates chrono in allowing
no sign on the year and bounding the seconds field by 59). -/
def parse_timestamp (cs : List Char) : Option TsParts :=
  let yds := cs.takeWhile Char.isDigit
  if yds.isEmpty then none else
  match expect_char '-' (cs.drop yds.length) with
  | none => none
  | some r1 =>
  match scan_num 2 r1 with
  | none => none
  | some (mo, r2) =>
  match expect_char '-' r2 with
  | none => none
  | some r3 =>
  match scan_num 2 r3 with
  | none => none
  | some (d, r4) =>
  match expect_char ' ' r4 with
  | none => none
  | some r5 =>
  match scan_num 2 r5 with
  | none => none
  | some (h, r6) =>
  match expect_char ':' r6 with
  | none => none
  | some r7 =>
  match scan_num 2 r7 with
  | none => none
  | some (mi, r8) =>
  match expect_char ':' r8 with
  | none => none
  | some r9 =>
  match scan_num 2 r9 with
  | none => none
  | some (s, r10) =>
  match scan_fraction r10 with
  | none => none
  | some (ns, r11) =>
  match expect_char ' ' r11 with
  | none => none
  | some r12 =>
  match expect_char 'U' r12 with
  | none => none
  | some r13 =>
  match expect_char 'T' r13 with
  | none => none
  | some r14 =>
  match expect_char 'C' r14 with
  | none => none
  | some r15 =>
  if r15.isEmpty && ts_in_range (digits_to_nat yds) mo d h mi s then
    some ⟨digits_to_nat yds, mo, d, h, mi, s, ns⟩
  else none

/-- Days from 1970-01-01 of a civil date (Hinnant's `days_from_civil`
algorithm, the arithmetic underlying `chrono`'s epoch conversion). -/
def days_from_civil (y m d : Int) : Int :=
  let y2 := if m ≤ 2 then y - 1 else y
  let era := Int.fdiv y2 400
  let yoe := y2 - era * 400
  let mp := if m > 2 then m - 3 else m + 9
  let doy := Int.fdiv (153 * mp + 2) 5 + d - 1
  let doe := yoe * 365 + Int.fdiv yoe 4 - Int.fdiv yoe 100 + doy
  era * 146097 + doe - 719468

/-- Nanoseconds since the Unix epoch of a parsed timestamp; the model of the
`DateTime<Utc>` value stored in a `Log`. -/
def to_epoch_nanos (t : TsParts) : Int :=
  (days_from_civil (t.year : Int) (t.month : Int) (t.day : Int) * 86400 +
    (t.hour : Int) * 3600 + (t.minute : Int) * 60 + (t.second : Int)) * 1000000000 +
    (t.nanos : Int)

/-- Characters allowed in a URL scheme after the first (RFC 3986). -/
def is_scheme_char (c : Char) : Bool :=
  c.isAlpha || c.isDigit || c = '+' || c = '-' || c = '.'

/-- Lower-case an ASCII letter, identity elsewhere. -/
def ascii_lower (c : Char) : Char :=
  if 65 ≤ c.toNat ∧ c.toNat ≤ 90 then Char.ofNat (c.toNat + 32) else c

/-- The WHATWG special schemes that require a nonempty host. -/
def special_schemes : List (List Char) :=
  ["http", "https", "ws", "wss", "ftp"].map String.data

/-- Models success of `reqwest::Url::parse` (an absolute-URL parse): the
input must have a valid scheme followed by a colon (otherwise the error is
`RelativeUrlWithoutBase`), and for the special network schemes an authority
with a nonempty host must follow.  This is a simplified model of the `url`
crate: it checks the scheme and host shape and accepts the remainder
unchecked. -/
def url_parse_ok (cs : List Char) : Bool :=
  let pre := cs.takeWhile (fun c => c != ':')
  let post := cs.drop pre.length
  match post with
  | ':' :: rest =>
    let sch := pre.map ascii_lower
    match sch with
    | [] => false
    | c :: _ =>
      c.isAlpha && sch.all is_scheme_char &&
        (if special_schemes.contains sch then
          match rest with
          | '/' :: '/' :: r2 =>
            !(r2.takeWhile (fun c => c != '/' && c != '?' && c != '#')).isEmpty
          | _ => false
        else true)
  | _ => false

/-- RFC 7230 token characters (the valid-byte table shared by
`http::Method` and `http::header::HeaderName`): ASCII letters, digits, and
`! # $ % & ' * + - . ^ _ ` | ~`. -/
def is_http_token_char (c : Char) : Bool :=
  c.isAlpha || c.isDigit ||
    [33, 35, 36, 37, 38, 39, 42, 43, 45, 46, 94, 95, 96, 124, 126].contains c.toNat

/-- Models success of `http::Method::from_bytes`: ANY nonempty RFC 7230
token is accepted (the named standard verbs are just pre-allocated cases);
only the empty string or a non-token byte is rejected. -/
def method_from_bytes_ok (cs : List Char) : Bool :=
  !cs.isEmpty && cs.all is_http_token_char

/-- The standard HTTP verbs named by `http::Method`'s constants — what the
specification calls "recognized HTTP verbs". -/
def recognized_http_verbs : List (List Char) :=
  ["GET", "HEAD", "POST", "PUT", "DELETE", "CONNECT", "OPTIONS", "TRACE",
    "PATCH"].map String.data

/-- Models validity for `http::header::HeaderName::try_from`: a nonempty
token. -/
def header_name_ok (cs : List Char) : Bool :=
  !cs.isEmpty && cs.all is_http_token_char

/-- Models validity for `http::header::HeaderValue::try_from`: every byte is
horizontal tab or at least 32 and not DEL (characters at 128 and above encode
to bytes at 128 and above, which the crate accepts as opaque). -/
def header_value_ok (cs : List Char) : Bool :=
  cs.all fun c => c.toNat == 9 || (32 ≤ c.toNat && c.toNat != 127)

/-- Validity of the whole header map: the `TryInto<HeaderMap>` conversion in
`schedule_request` succeeds exactly when every name and value is valid. -/
def header_map_ok (hs : List (List Char × List Char)) : Bool :=
  hs.all fun p => header_name_ok p.1 && header_value_ok p.2

/-- Unified error type of the program (`PlaybackError` is a boxed
`dyn Error`; the constructors identify which stage and field failed, as the
`bail!` messages do). -/
inductive PlaybackErr where
  | ioError
  | jsonError
  | timestampError
  | urlError
  | methodError
deriving DecidableEq

deriving instance DecidableEq for Except

/-- True exactly on `Except.ok`. -/
def except_ok : Except ε α → Bool
  | .ok _ => true
  | .error _ => false

/-- `struct JsonLog` from `src/main.rs`: the raw string fields deserialized
from one JSON record. -/
structure JsonLog where
  accessed_at : List Char
  url : List Char
  http_method : List Char
  http_header : List (List Char × List Char)
  http_body : List Char
deriving DecidableEq

/-- `struct Log` from `src/main.rs`: the validated record.  `accessed_at` is
the `DateTime<Utc>` as nanoseconds since the epoch; `url` and `http_method`
keep their (validated) textual form; the `HashMap` of headers is a list of
pairs (order is irrelevant to every use: conversion validity is an
all-entries condition). -/
structure Log where
  accessed_at : Int
  url : List Char
  http_method : List Char
  http_header : List (List Char × List Char)
  http_body : List Char
deriving DecidableEq

/-- `impl TryFrom<JsonLog> for Log` from `src/main.rs`: parse the timestamp
with the fixed chrono format (else `bail!("Date and time format is not
correct")`), parse the URL (else `bail!("url format is not correct")`), check
the method bytes (else `bail!("Method is not correct")`), and pass
`http_header` and `http_body` through untouched. -/
def Log.try_from (json_log : JsonLog) : Except PlaybackErr Log :=
  match parse_timestamp json_log.accessed_at with
  | none => .error .timestampError
  | some dt =>
    if url_parse_ok json_log.url then
      if method_from_bytes_ok json_log.http_method then
        .ok { accessed_at := to_epoch_nanos dt, url := json_log.url,
              http_method := json_log.http_method,
              http_header := json_log.http_header,
              http_body := json_log.http_body }
      else .error .methodError
    else .error .urlError

/-- The `for json_log in json_logs` loop of `resolve_log_text`: convert each
record in order, stopping at the first failure. -/
def resolve_log_list : List JsonLog → Except PlaybackErr (List Log)
  | [] => .ok []
  | j :: js =>
    match Log.try_from j with
    | .error e => .error e
    | .ok l =>
      match resolve_log_list js with
      | .error e => .error e
      | .ok ls => .ok (l :: ls)

/-- `resolve_log_text` from `src/main.rs`.  The `serde_json::from_str` stage
is an external crate; it is abstracted as the parameter `json_parse`, so the
theorems below hold for every possible outcome of that stage. -/
def resolve_log_text (json_parse : List Char → Except PlaybackErr (List JsonLog))
    (log_text : List Char) : Except PlaybackErr (List Log) :=
  match json_parse log_text with
  | .error e => .error e
  | .ok json_logs => resolve_log_list json_logs

/-- `resolve_log_file` from `src/main.rs`: one whole-file read
(`std::fs::read_to_string`, abstracted as the parameter `fs`), then exactly
`resolve_log_text` on the text read. -/
def resolve_log_file (json_parse : List Char → Except PlaybackErr (List JsonLog))
    (fs : List Char → Except PlaybackErr (List Char))
    (log_file_path : List Char) : Except PlaybackErr (List Log) :=
  match fs log_file_path with
  | .error e => .error e
  | .ok log_text => resolve_log_text json_parse log_text

/-- Result of one HTTP send, as seen by `schedule_request`: `reqwest` returns
either a response (any status — the code only prints it) or a transport
error (also only printed). -/
inductive TransportResult where
  | response : Nat → TransportResult
  | transport_error : TransportResult
deriving DecidableEq

/-- One request actually handed to the HTTP sender. -/
structure SendEvent where
  method : List Char
  url : List Char
  header : List (List Char × List Char)
  body : List Char
deriving DecidableEq

/-- The error `schedule_request` returns through `?`: `chrono`'s
`Duration::to_std` fails with `OutOfRangeError` exactly when the duration is
negative, i.e. the deadline already passed. -/
inductive SchedError where
  | deadlineElapsed
deriving DecidableEq

/-- What one spawned task ends as: `errored` models `schedule_request`
returning `Err` (which the task body then `unwrap`s into a panic), `panicked`
models a panic inside `schedule_request` (the header-map `try_into().unwrap()`),
and `finished` models running to completion, the printed transport result
attached. -/
inductive TaskOutcome where
  | errored : SchedError → TaskOutcome
  | panicked : TaskOutcome
  | finished : TransportResult → TaskOutcome
deriving DecidableEq

/-- `schedule_request` from `src/main.rs`, as a function of the clock value
`now` the task reads and of the transport result of its send.  Returns the
task's outcome and the list of requests handed to the HTTP sender (empty or a
singleton).  Steps, in source order: `(log.accessed_at - now).to_std()?`
fails iff the difference is negative; then the delay; then the header-map
conversion `unwrap` panics on an invalid header; then the send, whose result
is only printed. -/
def schedule_request (log : Log) (now : Int) (transport : TransportResult) :
    TaskOutcome × List SendEvent :=
  if log.accessed_at - now < 0 then (.errored .deadlineElapsed, [])
  else if !(header_map_ok log.http_header) then (.panicked, [])
  else (.finished transport,
    [⟨log.http_method, log.url, log.http_header, log.http_body⟩])

/-- A task whose `JoinHandle` resolves to a `JoinError`: the task body is
`schedule_request(log).await.unwrap()`, so both an `Err` return (unwrapped)
and an internal panic end the task panicked. -/
def task_failed : TaskOutcome → Bool
  | .finished _ => false
  | _ => true

/-- Overall result of `send_requests`: it either returns `Ok(())` or the
process panics out of it (`task.await.unwrap()` on a failed task). -/
inductive RunStatus where
  | completed
  | aborted
deriving DecidableEq

/-- The spawn loop of `send_requests`: every record gets its own task; task
`i` runs `schedule_request` against its own clock reading `now i` and
transport result `transport i`. -/
def spawn_tasks (now : Nat → Int) (transport : Nat → TransportResult) :
    Nat → List Log → List (TaskOutcome × List SendEvent)
  | _, [] => []
  | i, log :: logs =>
    schedule_request log (now i) (transport i) ::
      spawn_tasks now transport (i + 1) logs

/-- The await loop of `send_requests`: `for task in tasks — task.await.unwrap()`.
Tasks are awaited in input order; the first failed task makes the `unwrap`
panic, aborting the run.  Returns the run status and the indices of the tasks
whose completion was actually awaited and observed. -/
def await_tasks : Nat → List TaskOutcome → RunStatus × List Nat
  | _, [] => (.completed, [])
  | i, o :: os =>
    if task_failed o then (.aborted, [i])
    else
      let r := await_tasks (i + 1) os
      (r.1, i :: r.2)

/-- `send_requests` from `src/main.rs`: spawn one task per record, then await
them in input order.  Result: run status, indices awaited, and the requests
handed to the HTTP sender by the spawned tasks (the tasks all start
immediately; on an abort the ones still waiting are killed with the process,
so this send list is what the tasks would send when allowed to finish —
no theorem below relies on the sends of a run that aborts). -/
def send_requests (logs : List Log) (now : Nat → Int)
    (transport : Nat → TransportResult) :
    RunStatus × List Nat × List SendEvent :=
  let tasks := spawn_tasks now transport 0 logs
  let a := await_tasks 0 (tasks.map Prod.fst)
  (a.1, a.2, (tasks.map Prod.snd).flatten)

/-- The shift application in `main`: each `Log` is rebuilt with
`accessed_at + Duration::from_std(shift_time)`; `parse_time` produces whole
seconds, added here as nanoseconds. -/
def shift_log (shift_secs : Nat) (log : Log) : Log :=
  { accessed_at := log.accessed_at + (shift_secs : Int) * 1000000000,
    url := log.url, http_method := log.http_method,
    http_header := log.http_header, http_body := log.http_body }

/-- The pipeline of `main` after argument handling: resolve the logs (the
`.unwrap()` on the resolve result panics before any dispatch when decoding
failed — modelled as `none`), shift them, and run `send_requests`.  `parsed`
is the outcome of the serde stage on the given input text. -/
def main_dispatch (parsed : Except PlaybackErr (List JsonLog))
    (shift_secs : Nat) (now : Nat → Int) (transport : Nat → TransportResult) :
    Option (RunStatus × List Nat) × List SendEvent :=
  match parsed with
  | .error _ => (none, [])
  | .ok json_logs =>
    match resolve_log_list json_logs with
    | .error _ => (none, [])
    | .ok logs =>
      let r := send_requests (logs.map (shift_log shift_secs)) now transport
      (some (r.1, r.2.1), r.2.2)

lemma u64_from_str_digits (ds : List Char) (hne : ds ≠ [])
    (hdig : ds.all Char.isDigit = true) (hlt : digits_to_nat ds < 2 ^ 64) :
    u64_from_str ds = some (digits_to_nat ds) := by
  cases ds with
  | nil => exact absurd rfl hne
  | cons c rest =>
    have hc : c.isDigit = true := by
      simp only [List.all_cons, Bool.and_eq_true] at hdig
      exact hdig.1
    have hplus : ¬ c = '+' := by
      intro h
      subst h
      exact absurd hc (by decide)
    simp [u64_from_str, hplus, hdig, hlt]
    exact hlt

lemma unit_factor_cases (u : Char) (f : Nat) (hu : unit_factor u = some f) :
    (u = 's' ∧ f = 1) ∨ (u = 'm' ∧ f = 60) ∨ (u = 'h' ∧ f = 3600) ∨
    (u = 'd' ∧ f = 86400) ∨ (u = 'w' ∧ f = 604800) := by
  unfold unit_factor at hu
  split_ifs at hu with h1 h2 h3 h4 h5 <;> simp_all

lemma parse_time_concat (ds : List Char) (u : Char) (f : Nat) (hne : ds ≠ [])
    (hdig : ds.all Char.isDigit = true) (hu : unit_factor u = some f)
    (hlt : digits_to_nat ds < 2 ^ 64) :
    parse_time (ds ++ [u]) = .ok ((digits_to_nat ds * f) % 2 ^ 64) := by
  have hget : (ds ++ [u]).getLast? = some u := List.getLast?_concat _
  have hdrop : (ds ++ [u]).dropLast = ds := List.dropLast_concat
  have hnum := u64_from_str_digits ds hne hdig hlt
  rcases unit_factor_cases u f hu with ⟨h, hf⟩ | ⟨h, hf⟩ | ⟨h, hf⟩ | ⟨h, hf⟩ | ⟨h, hf⟩ <;>
    subst h <;> subst hf <;>
    simp +decide [parse_time, TimeType.from_str, hget, hdrop, hnum,
      Nat.mod_eq_of_lt hlt] <;>
    ring_nf
  omega

lemma parse_time_isOk_eq (cs : List Char) :
    (parse_time cs).isOk = (TimeType.from_str cs).isOk := by
  unfold parse_time
  cases TimeType.from_str cs <;> rfl

lemma from_str_not_ok_of_no_unit (cs : List Char) (c : Char)
    (hlast : cs.getLast? = some c) (hc : unit_factor c = none) :
    (TimeType.from_str cs).isOk = false := by
  unfold unit_factor at hc
  split_ifs at hc with hs hm hh hd hw
  simp only [TimeType.from_str, hlast]
  split_ifs with hb
  · rfl
  · cases u64_from_str cs.dropLast with
    | none => rfl
    | some n => simp [hs, hm, hh, hd, hw, RunOutcome.isOk]

lemma from_str_not_ok_of_bad_num (cs : List Char)
    (hnum : u64_from_str cs.dropLast = none) :
    (TimeType.from_str cs).isOk = false := by
  cases hlast : cs.getLast? with
  | none => simp [TimeType.from_str, hlast, RunOutcome.isOk]
  | some c =>
    simp only [TimeType.from_str, hlast, hnum]
    split_ifs with hb
    · rfl
    · rfl

/-- C4 (counterexample): the claim "the shift parser returns a duration equal
to n scaled by the unit factor" fails for `18446744073709551615m`: the parser
accepts it but the unchecked `u64` multiplication wraps, returning
`2 ^ 64 - 60` seconds instead of `18446744073709551615 * 60` seconds. -/
theorem parse_time_large_value_wraps :
    parse_time "18446744073709551615m".data = .ok 18446744073709551556 ∧
    (18446744073709551556 : Nat) ≠ 18446744073709551615 * 60 := by
  constructor
  · decide
  · decide

/-- C4 (amended): for every shift expression `<n><unit>` with `n` a digit
string and `n * factor < 2 ^ 64`, `parse_time` returns exactly `n * factor`
seconds (s=1, m=60, h=3600, d=86400, w=604800); and `parse_time` never
succeeds when the string is empty, when its final character is not a
recognized unit letter, or when the prefix before the unit does not parse as a
`u64` (this covers non-digit characters and values at least `2 ^ 64`; for a
final character that is not a single UTF-8 byte the function panics, which is
also not success). -/
theorem parse_time_valid_and_invalid :
    (∀ (ds : List Char) (u : Char) (f : Nat),
      ds ≠ [] → ds.all Char.isDigit = true → unit_factor u = some f →
      digits_to_nat ds * f < 2 ^ 64 →
      parse_time (ds ++ [u]) = .ok (digits_to_nat ds * f)) ∧
    (parse_time []).isOk = false ∧
    (∀ (cs : List Char) (c : Char), cs.getLast? = some c →
      unit_factor c = none → (parse_time cs).isOk = false) ∧
    (∀ cs : List Char, u64_from_str cs.dropLast = none →
      (parse_time cs).isOk = false) := by
  refine ⟨?_, by decide, ?_, ?_⟩
  · intro ds u f hne hdig hu hlt
    have hf1 : 1 ≤ f := by
      rcases unit_factor_cases u f hu with ⟨_, hf⟩ | ⟨_, hf⟩ | ⟨_, hf⟩ | ⟨_, hf⟩ | ⟨_, hf⟩ <;>
        omega
    have hds : digits_to_nat ds < 2 ^ 64 := by
      calc digits_to_nat ds ≤ digits_to_nat ds * f := Nat.le_mul_of_pos_right _ hf1
        _ < 2 ^ 64 := hlt
    rw [parse_time_concat ds u f hne hdig hu hds, Nat.mod_eq_of_lt hlt]
  · intro cs c hlast hc
    rw [parse_time_isOk_eq]
    exact from_str_not_ok_of_no_unit cs c hlast hc
  · intro cs hnum
    rw [parse_time_isOk_eq]
    exact from_str_not_ok_of_bad_num cs hnum

/-- C4 (witness): the amended theorem applied at the concrete inputs `5m`
(valid, yielding 300 seconds), `2t` (unrecognized unit) and `s` (empty numeric
prefix). -/
theorem parse_time_valid_and_invalid_witness :
    parse_time (['5'] ++ ['m']) = .ok (digits_to_nat ['5'] * 60) ∧
    (parse_time ['2', 't']).isOk = false ∧
    (parse_time ['s']).isOk = false :=
  ⟨parse_time_valid_and_invalid.1 ['5'] 'm' 60 (by decide) (by decide) (by decide)
      (by decide),
   parse_time_valid_and_invalid.2.2.1 ['2', 't'] 't' (by decide) (by decide),
   parse_time_valid_and_invalid.2.2.2 ['s'] (by decide)⟩

/-- C8 (counterexample): `TimeType::from_str` does not return a value or an
error on every input: on `2é`, whose final character occupies two UTF-8
bytes, the byte slice `s[0..s.len()-1]` is taken at a non-boundary index and
the function panics. -/
theorem from_str_multibyte_tail_panics :
    TimeType.from_str "2é".data = .panicked ∧
    (TimeType.from_str "2é".data).isOk = false := by
  constructor
  · decide
  · decide

/-- C8 (amended): `TimeType::from_str` returns a parsed value or an error —
never panics — exactly for inputs that are empty or whose final character is a
single UTF-8 byte; it panics exactly when the final character occupies more
than one UTF-8 byte, because the prefix byte slice `s[0..s.len()-1]` then
falls inside that character. -/
theorem from_str_panic_characterization (cs : List Char) :
    TimeType.from_str cs = .panicked ↔
      ∃ c, cs.getLast? = some c ∧ c.utf8Size ≠ 1 := by
  cases hlast : cs.getLast? with
  | none => simp [TimeType.from_str, hlast]
  | some c =>
    simp only [TimeType.from_str, hlast, Option.some.injEq]
    constructor
    · intro h
      by_cases hb : c.utf8Size ≠ 1
      · exact ⟨c, rfl, hb⟩
      · rw [if_neg hb] at h
        cases hnum : u64_from_str cs.dropLast with
        | none => rw [hnum] at h; simp at h
        | some n =>
          rw [hnum] at h
          split_ifs at h
    · rintro ⟨c2, hc2, hb⟩
      subst hc2
      rw [if_pos hb]

/-- C9: for every accepted shift expression the scaling is an unchecked
(wrapping) `u64` multiplication: the result is `n * factor` reduced modulo
`2 ^ 64`; and for the accepted input `18446744073709551615w` the product
really wraps, so the returned duration is not the mathematically correct
`n * 604800`. -/
theorem parse_time_unchecked_mul_mod :
    (∀ (ds : List Char) (u : Char) (f : Nat),
      ds ≠ [] → ds.all Char.isDigit = true → unit_factor u = some f →
      digits_to_nat ds < 2 ^ 64 →
      parse_time (ds ++ [u]) = .ok ((digits_to_nat ds * f) % 2 ^ 64)) ∧
    parse_time "18446744073709551615w".data = .ok 18446744073708946816 ∧
    (18446744073709551615 * 604800) % 2 ^ 64 ≠ 18446744073709551615 * 604800 := by
  refine ⟨parse_time_concat, by decide, by decide⟩

/-- C9 (witness): the modular-multiplication theorem applied at the concrete
input `25h`. -/
theorem parse_time_unchecked_mul_mod_witness :
    parse_time (['2', '5'] ++ ['h']) = .ok ((digits_to_nat ['2', '5'] * 3600) % 2 ^ 64) :=
  parse_time_unchecked_mul_mod.1 ['2', '5'] 'h' 3600 (by decide) (by decide)
    (by decide) (by decide)

/-- C3: a record whose shifted deadline (`firedAt + shift`) is strictly in
the past at the moment its task computes the wait duration yields the
`DeadlineElapsed` error (`Duration::to_std` fails on the negative duration
and `?` returns early) and the HTTP sender is never invoked for it. -/
theorem schedule_request_past_deadline_no_send (log : Log) (shift_secs : Nat)
    (now : Int) (transport : TransportResult)
    (h : log.accessed_at + (shift_secs : Int) * 1000000000 < now) :
    schedule_request (shift_log shift_secs log) now transport =
      (.errored .deadlineElapsed, []) := by
  have hneg : (shift_log shift_secs log).accessed_at - now < 0 := by
    simp only [shift_log]
    omega
  simp [schedule_request, hneg]

/-- C3 (witness): the theorem applied to a record fired at the epoch, shifted
by one second, dispatched two seconds after the epoch. -/
theorem schedule_request_past_deadline_no_send_witness :
    schedule_request (shift_log 1 ⟨0, "http://a/".data, "GET".data, [], []⟩)
      2000000000 (.response 200) = (.errored .deadlineElapsed, []) :=
  schedule_request_past_deadline_no_send
    ⟨0, "http://a/".data, "GET".data, [], []⟩ 1 2000000000 (.response 200)
    (by decide)

/-- C5 (counterexample): the claim says construction fails when "the method
token is not a recognized HTTP verb", but `Method::from_bytes` accepts every
valid token: a record whose method is `FOO` — not a recognized verb — decodes
successfully. -/
theorem try_from_accepts_nonstandard_method :
    except_ok (Log.try_from ⟨"2024-01-01 00:00:00.000 UTC".data,
      "https://example.com/a".data, "FOO".data, [], []⟩) = true ∧
    recognized_http_verbs.contains "FOO".data = false := by
  constructor
  · decide
  · decide

/-- C5 (amended): constructing a `Log` from raw fields succeeds exactly when
the timestamp parses under the fixed chrono format, the URL is a valid
absolute URL, and the method is a valid HTTP method token (any nonempty RFC
7230 token, not only the recognized standard verbs); it fails with the
field-identifying decode error otherwise. -/
theorem try_from_ok_iff_fields_valid (j : JsonLog) :
    except_ok (Log.try_from j) =
      ((parse_timestamp j.accessed_at).isSome && url_parse_ok j.url &&
        method_from_bytes_ok j.http_method) := by
  unfold Log.try_from
  cases hp : parse_timestamp j.accessed_at with
  | none => simp [except_ok]
  | some dt =>
    by_cases hu : url_parse_ok j.url <;>
      by_cases hm : method_from_bytes_ok j.http_method <;>
      simp [hu, hm, except_ok]

/-- C7: when the file read succeeds, decoding through the file path is the
very same computation as decoding the file's text passed directly:
`resolve_log_file` is one whole-file read followed by `resolve_log_text`. -/
theorem resolve_log_file_same_as_text
    (json_parse : List Char → Except PlaybackErr (List JsonLog))
    (fs : List Char → Except PlaybackErr (List Char))
    (path text : List Char) (h : fs path = .ok text) :
    resolve_log_file json_parse fs path = resolve_log_text json_parse text := by
  unfold resolve_log_file
  rw [h]

/-- C7 (witness): the refinement applied to a one-file filesystem holding the
empty text. -/
theorem resolve_log_file_same_as_text_witness :
    resolve_log_file (fun _ => .ok []) (fun _ => .ok []) [] =
      resolve_log_text (fun _ => .ok []) [] :=
  resolve_log_file_same_as_text (fun _ => .ok []) (fun _ => .ok []) [] [] rfl

/-- C10: decoding validates only `accessed_at`, `url` and `http_method` — a
record whose three validated fields are good decodes successfully whatever
`http_header` and `http_body` contain; an invalid header entry is only hit
later, inside the sending task's header-map conversion, whose `unwrap` panics
(the `panicked` outcome, distinct from the `errored` per-task error). -/
theorem decode_defers_header_validation :
    (∀ (j : JsonLog) (hdr : List (List Char × List Char)) (b : List Char),
      (parse_timestamp j.accessed_at).isSome = true →
      url_parse_ok j.url = true →
      method_from_bytes_ok j.http_method = true →
      except_ok (Log.try_from
        { accessed_at := j.accessed_at, url := j.url,
          http_method := j.http_method, http_header := hdr,
          http_body := b }) = true) ∧
    (∀ (log : Log) (now : Int) (transport : TransportResult),
      header_map_ok log.http_header = false → 0 ≤ log.accessed_at - now →
      schedule_request log now transport = (.panicked, [])) := by
  constructor
  · intro j hdr b hts hurl hm
    unfold Log.try_from
    cases hp : parse_timestamp j.accessed_at with
    | none => rw [hp] at hts; simp at hts
    | some dt => simp [hp, hurl, hm, except_ok]
  · intro log now transport hh hge
    have hlt : ¬ (log.accessed_at - now < 0) := by omega
    simp [schedule_request, hlt, hh]

/-- C10 (witness): the theorem applied to a record with valid timestamp, URL
and method but a header name containing a space, and to the task that later
hits that header map. -/
theorem decode_defers_header_validation_witness :
    except_ok (Log.try_from ⟨"2024-01-01 00:00:00.000 UTC".data,
      "https://example.com/a".data, "GET".data,
      [("a b".data, "x".data)], []⟩) = true ∧
    schedule_request ⟨0, "http://a/".data, "GET".data,
      [("a b".data, "x".data)], []⟩ 0 (.response 200) = (.panicked, []) :=
  ⟨decode_defers_header_validation.1
      ⟨"2024-01-01 00:00:00.000 UTC".data, "https://example.com/a".data,
        "GET".data, [], []⟩
      [("a b".data, "x".data)] [] (by decide) (by decide) (by decide),
   decode_defers_header_validation.2
      ⟨0, "http://a/".data, "GET".data, [("a b".data, "x".data)], []⟩ 0
      (.response 200) (by decide) (by decide)⟩

/-- C6: the decoder returns the ordered sequence of all decoded records
(`Forall₂` ties the output to the input pointwise, in order, with equal
length), or fails on the first invalid record with that record's
field-identifying error; and when decoding fails — at the serde stage or at
any record — `main` panics on the `unwrap` before dispatching, so no request
of a malformed batch is ever handed to the sender. -/
theorem resolve_logs_ordered_or_first_error :
    (∀ (js : List JsonLog) (ls : List Log),
      resolve_log_list js = .ok ls ↔
        List.Forall₂ (fun j l => Log.try_from j = .ok l) js ls) ∧
    (∀ (js : List JsonLog) (e : PlaybackErr), resolve_log_list js = .error e →
      ∃ pre j post, js = pre ++ j :: post ∧
        (∀ j2 ∈ pre, except_ok (Log.try_from j2) = true) ∧
        Log.try_from j = .error e) ∧
    (∀ (parsed : Except PlaybackErr (List JsonLog)) (shift_secs : Nat)
      (now : Nat → Int) (transport : Nat → TransportResult),
      (∀ js, parsed = .ok js → except_ok (resolve_log_list js) = false) →
      (main_dispatch parsed shift_secs now transport).2 = []) := by
  refine ⟨?_, ?_, ?_⟩
  · intro js
    induction js with
    | nil =>
      intro ls
      simp [resolve_log_list, List.forall₂_nil_left_iff, eq_comm]
    | cons j js ih =>
      intro ls
      unfold resolve_log_list
      cases h1 : Log.try_from j with
      | error e => simp [List.forall₂_cons_left_iff, h1]
      | ok l =>
        cases h2 : resolve_log_list js with
        | error e => simp [List.forall₂_cons_left_iff, ← ih, h2]
        | ok ls2 =>
          constructor
          · intro hok
            have hls : ls = l :: ls2 := by
              injection hok with h3
              exact h3.symm
            subst hls
            exact List.Forall₂.cons h1 ((ih ls2).mp h2)
          · intro hf
            cases hf with
            | cons hjl hrest =>
              rw [h1] at hjl
              injection hjl with hb
              have hl2 := (ih _).mpr hrest
              rw [h2] at hl2
              injection hl2 with hl2
              rw [hb, hl2]
  · intro js
    induction js with
    | nil => intro e h; simp [resolve_log_list] at h
    | cons j js ih =>
      intro e h
      unfold resolve_log_list at h
      cases h1 : Log.try_from j with
      | error e2 =>
        simp only [h1, Except.error.injEq] at h
        subst h
        refine ⟨[], j, js, rfl, ?_, h1⟩
        intro j2 hj2
        simp at hj2
      | ok l =>
        simp only [h1] at h
        cases h2 : resolve_log_list js with
        | error e2 =>
          simp only [h2, Except.error.injEq] at h
          subst h
          obtain ⟨pre, jj, post, hsplit, hpre, hj⟩ := ih e2 h2
          refine ⟨j :: pre, jj, post, by rw [hsplit]; rfl, ?_, hj⟩
          intro j2 hj2
          rcases List.mem_cons.mp hj2 with h3 | h3
          · subst h3
            simp [h1, except_ok]
          · exact hpre j2 h3
        | ok ls2 =>
          simp only [h2] at h
          exact Except.noConfusion h
  · intro parsed shift_secs now transport h
    cases parsed with
    | error e => rfl
    | ok js =>
      have hres := h js rfl
      cases h2 : resolve_log_list js with
      | error e => simp [main_dispatch, h2]
      | ok ls =>
        rw [h2] at hres
        simp [except_ok] at hres

/-- C6 (witness): the theorem applied to the empty batch (decodes to the
empty, ordered sequence), to a one-record batch whose timestamp is invalid
(first-error case), and to a run whose serde stage failed (no sends). -/
theorem resolve_logs_ordered_or_first_error_witness :
    resolve_log_list [] = .ok [] ∧
    (∃ pre j post,
      ([⟨"x".data, "http://a/".data, "GET".data, [], []⟩] : List JsonLog) =
        pre ++ j :: post ∧
      (∀ j2 ∈ pre, except_ok (Log.try_from j2) = true) ∧
      Log.try_from j = .error .timestampError) ∧
    (main_dispatch (.error .jsonError) 0 (fun _ => 0)
      (fun _ => .response 200)).2 = [] :=
  ⟨(resolve_logs_ordered_or_first_error.1 [] []).mpr List.Forall₂.nil,
   resolve_logs_ordered_or_first_error.2.1
     [⟨"x".data, "http://a/".data, "GET".data, [], []⟩] .timestampError
     (by decide),
   resolve_logs_ordered_or_first_error.2.2 (.error .jsonError) 0 (fun _ => 0)
     (fun _ => .response 200) (fun js h => by cases h)⟩

lemma await_spawn_all_ok (now : Nat → Int) (transport : Nat → TransportResult) :
    ∀ (k : Nat) (logs : List Log),
      ((spawn_tasks now transport k logs).all fun p => !(task_failed p.1)) = true →
      await_tasks k ((spawn_tasks now transport k logs).map Prod.fst) =
        (.completed, List.range' k logs.length) := by
  intro k logs
  induction logs generalizing k with
  | nil => intro h; rfl
  | cons l ls ih =>
    intro h
    simp only [spawn_tasks, List.all_cons, Bool.and_eq_true] at h
    obtain ⟨h1, h2⟩ := h
    rw [Bool.not_eq_true'] at h1
    simp only [spawn_tasks, List.map_cons, await_tasks, h1, if_false,
      Bool.false_eq_true]
    rw [ih (k + 1) h2]
    simp [List.range'_succ]

/-- C2 (counterexample): the claim says the run returns an aggregate with
exactly one Outcome per input record; on a batch holding one record whose
deadline has passed, `send_requests` does not return at all — the task's
error is `unwrap`ped into a panic and `task.await.unwrap()` aborts the run —
and no aggregate of outcomes exists. -/
theorem send_requests_aborts_instead_of_aggregating :
    send_requests [⟨0, "http://b/".data, "GET".data, [], []⟩]
        (fun _ => 5000000000) (fun _ => .response 200) =
      (.aborted, [0], []) ∧ RunStatus.aborted ≠ RunStatus.completed := by
  constructor
  · decide
  · decide

/-- C2 (amended): when no task fails, `send_requests` returns only after
awaiting every task — exactly one await per input record, in input-index
order, independent of the tasks' completion order — but it returns `Ok(())`,
not an aggregate: each task's result is only printed by the task itself; and
when some task fails, the run aborts at the first failed task in input order
instead of returning. -/
theorem send_requests_awaits_all_in_input_order (logs : List Log)
    (now : Nat → Int) (transport : Nat → TransportResult)
    (h : ((spawn_tasks now transport 0 logs).all fun p => !(task_failed p.1)) = true) :
    (send_requests logs now transport).1 = .completed ∧
    (send_requests logs now transport).2.1 = List.range logs.length := by
  have hr := await_spawn_all_ok now transport 0 logs h
  unfold send_requests
  rw [List.range_eq_range']
  simp [hr]

/-- C2 (witness): the amended theorem applied to a one-record batch whose
deadline is five seconds ahead of the task's clock. -/
theorem send_requests_awaits_all_in_input_order_witness :
    (send_requests [⟨5000000000, "http://a/".data, "GET".data, [], []⟩]
        (fun _ => 0) (fun _ => .response 200)).1 = .completed ∧
    (send_requests [⟨5000000000, "http://a/".data, "GET".data, [], []⟩]
        (fun _ => 0) (fun _ => .response 200)).2.1 = List.range 1 :=
  send_requests_awaits_all_in_input_order
    [⟨5000000000, "http://a/".data, "GET".data, [], []⟩]
    (fun _ => 0) (fun _ => .response 200) (by decide)

/-- C1 (code evaluated at the failing input): a two-record batch whose first
record's deadline has passed and whose second record, on its own, would
finish cleanly.  The first task's `DeadlineElapsed` error is `unwrap`ped into
a panic, `task.await.unwrap()` aborts the whole run, and only index 0 is ever
awaited — the second task's result is never observed or reported, so one
task's failure does abort the run instead of being isolated. -/
theorem send_requests_abort_on_deadline_elapsed :
    (send_requests [⟨0, "http://a/".data, "GET".data, [], []⟩,
        ⟨3000000000, "http://a/".data, "GET".data, [], []⟩]
      (fun _ => 1000000000) (fun _ => .response 200)).1 = .aborted ∧
    (send_requests [⟨0, "http://a/".data, "GET".data, [], []⟩,
        ⟨3000000000, "http://a/".data, "GET".data, [], []⟩]
      (fun _ => 1000000000) (fun _ => .response 200)).2.1 = [0] ∧
    (schedule_request ⟨3000000000, "http://a/".data, "GET".data, [], []⟩
      1000000000 (.response 200)).1 = .finished (.response 200) := by
  refine ⟨by decide, by decide, by decide⟩
